import Mathlib

/-!
# Verification of smtp-proxy-lite against its specification

Shallow embedding, in Lean 4, of the parts of the `smtp-proxy-lite`
repository that the specification claims are about:

* the SMTP session state machine (`internal/smtp/session.go`),
* the MIME message walker (`internal/parser/parser.go`),
* the Microsoft Graph delivery provider and its token cache
  (`internal/provider/graph/graph.go`, `internal/provider/graph/auth.go`),
* the SES delivery provider (`internal/provider/ses/ses.go`).

Go byte strings are modelled as `List Nat` (one `Nat` per byte, each < 256)
where byte-level behaviour matters, and as Lean `String` where the Go code
operates on whole strings.  Network, clock and log effects are modelled by
explicit outcome parameters; machine `time.Duration` values are modelled in
whole seconds as `Nat` because every delay in the source is a whole number
of seconds.
-/

namespace SmtpSession

/-!
## SMTP session state machine — `internal/smtp/session.go`

Session states are the `iota` constants of the source:
`stateConnected = 0`, `stateGreeted = 1`, `stateAuthOK = 2`,
`stateMailFrom = 3`, `stateRcptTo = 4`, `stateData = 5`, `stateDone = 6`.
-/

def stateConnected : Nat := 0
def stateGreeted : Nat := 1
def stateAuthOK : Nat := 2
def stateMailFrom : Nat := 3
def stateRcptTo : Nat := 4

/-- `maxMessageSize` constant of `session.go` (10 MB), the value the EHLO
reply advertises in its `250-SIZE` line. -/
def maxMessageSize : Nat := 10 * 1024 * 1024

/-- `defaultMaxMessageSize` constant of `internal/config/config.go`
(25 MB in bytes), the default of the `smtp.maxMessageSize` setting. -/
def defaultMaxMessageSize : Nat := 26214400

/-- The mutable per-connection state of a `Session` (struct `Session` of
`session.go`), restricted to the fields the protocol logic reads or
writes.  `authEnabled` models `s.auth.Enabled()` (true iff both configured
credential strings are non-empty) and `tlsConfigured` models
`s.tlsConfig != nil`; both are fixed for the lifetime of a session. -/
structure Session where
  state : Nat
  mailFrom : String
  rcptTo : List String
  dataBuffer : String
  tlsActive : Bool
  tlsConfigured : Bool
  authEnabled : Bool
  hostname : String
deriving Repr, DecidableEq

/-- A fresh session as built by `NewSession`. -/
def initSession (hostname : String) (authEnabled tlsConfigured : Bool) : Session :=
  { state := stateConnected
    mailFrom := ""
    rcptTo := []
    dataBuffer := ""
    tlsActive := false
    tlsConfigured := tlsConfigured
    authEnabled := authEnabled
    hostname := hostname }

/-- Outcome of an AUTH exchange.  The source verifies base64-encoded
credentials against the configured pair (`auth.go`); the claims under
verification depend only on whether the exchange cancelled (`*` line),
failed to read, failed verification, or succeeded, so the exchange is
modelled by its outcome. -/
inductive AuthExchange where
  | cancelled
  | readError
  | badCreds
  | ok
deriving Repr, DecidableEq

/-- AUTH command input: mechanism token (already split from the argument)
plus the outcome of the credential exchange for PLAIN/LOGIN. -/
inductive AuthInput where
  | plain (x : AuthExchange)
  | login (x : AuthExchange)
  | otherMech
deriving Repr, DecidableEq

/-- Outcome of the DATA phase after the `354` go-ahead: the line-read loop
fails, the MIME parse fails, or the parse succeeds and the provider send
fails or succeeds.  The dot-unstuffed message bytes themselves do not
matter to the session state machine. -/
inductive DataInput where
  | readError
  | parseError
  | sendError
  | sendOk
deriving Repr, DecidableEq

/-- One SMTP command as dispatched by `handleCommand` (verb upper-cased by
`parseCommand`), with I/O outcomes for the commands that perform I/O. -/
inductive Cmd where
  | ehlo (arg : String)
  | helo (arg : String)
  | starttls (handshakeOk : Bool)
  | auth (a : AuthInput)
  | mail (arg : String)
  | rcpt (arg : String)
  | data (d : DataInput)
  | rset
  | noop
  | quit
  | unknown
deriving Repr, DecidableEq

/-- ASCII whitespace, the fragment of `unicode.IsSpace` relevant to SMTP
command arguments (`strings.TrimSpace` additionally trims a few Unicode
spaces, which cannot occur in the ASCII command stream). -/
def isSpaceChar (c : Char) : Bool :=
  c = ' ' ∨ c = '\t' ∨ c = '\n' ∨ c = '\x0b' ∨ c = '\x0c' ∨ c = '\r'

/-- `strings.TrimSpace` on a character list. -/
def trimChars (cs : List Char) : List Char :=
  ((cs.dropWhile isSpaceChar).reverse.dropWhile isSpaceChar).reverse

/-- ASCII upper-casing, the fragment of `strings.ToUpper` relevant to the
ASCII SMTP verbs and keywords. -/
def upperChar (c : Char) : Char :=
  if 'a' ≤ c ∧ c ≤ 'z' then Char.ofNat (c.toNat - 32) else c

/-- Prefix test on character lists (`strings.HasPrefix`). -/
def startsWithChars : List Char → List Char → Bool
  | _, [] => true
  | [], _ :: _ => false
  | c :: cs, p :: ps => c = p ∧ startsWithChars cs ps

/-- Whether `arg`, upper-cased, starts with the given ASCII keyword
(`strings.HasPrefix(strings.ToUpper(arg), kw)` in the source). -/
def upperHasKeyword (arg : String) (kw : String) : Bool :=
  startsWithChars (arg.data.map upperChar) kw.data

/-- `extractAddress` of `session.go`: trim surrounding whitespace; if the
remainder begins with `<`, the content between `<` and the first `>` is
the address (empty when no `>` exists); otherwise the trimmed token. -/
def extractAddress (s : String) : String :=
  let t := trimChars s.data
  match t with
  | '<' :: u =>
      if '>' ∈ u then String.mk (u.takeWhile (fun c => c ≠ '>')) else ""
  | _ => String.mk t

/-- `resetTransaction` of `session.go`: clear the transaction fields and
drop the state back to `AuthOK` (when auth is enabled and the session had
authenticated) or `Greeted` (when it had greeted). -/
def resetTransaction (s : Session) : Session :=
  let s := { s with mailFrom := "", rcptTo := [], dataBuffer := "" }
  if s.authEnabled ∧ stateAuthOK ≤ s.state then { s with state := stateAuthOK }
  else if stateGreeted ≤ s.state then { s with state := stateGreeted }
  else s

/-- `handleEHLO` of `session.go`, covering both EHLO and HELO
(`isEhlo = true` for EHLO).  Returns the updated session and the reply
lines written, in order. -/
def handleEHLO (s : Session) (isEhlo : Bool) (arg : String) : Session × List String :=
  if arg = "" then
    (s, ["501 Syntax: " ++ (if isEhlo then "EHLO" else "HELO") ++ " hostname"])
  else if ¬ isEhlo then
    ({ s with state := stateGreeted }, ["250 " ++ s.hostname ++ " Hello " ++ arg])
  else
    ({ s with state := stateGreeted },
      ["250-" ++ s.hostname ++ " Hello " ++ arg]
        ++ (if s.tlsConfigured ∧ ¬ s.tlsActive then ["250-STARTTLS"] else [])
        ++ (if s.authEnabled then ["250-AUTH PLAIN LOGIN"] else [])
        ++ ["250-SIZE " ++ toString maxMessageSize, "250 OK"])

/-- `handleSTARTTLS` of `session.go`.  On a successful handshake the
reader and writer are rebuilt, `tlsActive` is set and the state drops to
`Connected`; a failed handshake leaves the session record unchanged (the
handler just returns). -/
def handleSTARTTLS (s : Session) (handshakeOk : Bool) : Session × List String :=
  if ¬ s.tlsConfigured then (s, ["454 TLS not available"])
  else if s.tlsActive then (s, ["454 TLS already active"])
  else if handshakeOk then
    ({ s with tlsActive := true, state := stateConnected }, ["220 Ready to start TLS"])
  else (s, ["220 Ready to start TLS"])

/-- Replies of the PLAIN/LOGIN credential exchange shared by
`handleAuthPlain` and `handleAuthLogin` once the challenge bookkeeping is
folded into the `AuthExchange` outcome. -/
def authExchangeStep (s : Session) (x : AuthExchange) : Session × List String :=
  match x with
  | .readError => (s, [])
  | .cancelled => (s, ["501 Authentication cancelled"])
  | .badCreds => (s, ["535 Authentication failed"])
  | .ok => ({ s with state := stateAuthOK }, ["235 Authentication successful"])

/-- `handleAUTH` of `session.go`: a `503` before the greeting or when auth
is not enabled, `504` for an unknown mechanism, otherwise the PLAIN/LOGIN
exchange. -/
def handleAUTH (s : Session) (a : AuthInput) : Session × List String :=
  if s.state < stateGreeted then (s, ["503 Send EHLO/HELO first"])
  else if ¬ s.authEnabled then (s, ["503 AUTH not available"])
  else
    match a with
    | .plain x => authExchangeStep s x
    | .login x => authExchangeStep s x
    | .otherMech => (s, ["504 Unrecognized authentication type"])

/-- `handleMAIL` of `session.go`.  Note the order of the guards: the
`530` auth gate is checked before the `503` greeting gate. -/
def handleMAIL (s : Session) (arg : String) : Session × List String :=
  if s.authEnabled ∧ s.state < stateAuthOK then (s, ["530 Authentication required"])
  else if s.state < stateGreeted then (s, ["503 Send EHLO/HELO first"])
  else if ¬ upperHasKeyword arg "FROM:" then (s, ["501 Syntax: MAIL FROM:<address>"])
  else if extractAddress (String.mk (arg.data.drop 5)) = "" then
    (s, ["501 Syntax: MAIL FROM:<address>"])
  else
    ({ s with
        mailFrom := extractAddress (String.mk (arg.data.drop 5))
        rcptTo := []
        dataBuffer := ""
        state := stateMailFrom },
     ["250 OK"])

/-- `handleRCPT` of `session.go`. -/
def handleRCPT (s : Session) (arg : String) : Session × List String :=
  if s.state < stateMailFrom then (s, ["503 Send MAIL FROM first"])
  else if ¬ upperHasKeyword arg "TO:" then (s, ["501 Syntax: RCPT TO:<address>"])
  else if extractAddress (String.mk (arg.data.drop 3)) = "" then
    (s, ["501 Syntax: RCPT TO:<address>"])
  else
    ({ s with
        rcptTo := s.rcptTo ++ [extractAddress (String.mk (arg.data.drop 3))]
        state := stateRcptTo },
     ["250 OK"])

/-- The `354` go-ahead line emitted by `handleDATA`. -/
def dataGoAhead : String := "354 Start mail input; end with <CRLF>.<CRLF>"

/-- `handleDATA` of `session.go`: a `503` before `RcptTo`; otherwise the
`354` go-ahead followed by the outcome of reading, parsing and delivering
the message.  Parse errors, provider errors and success all reset the
transaction; a read error ends the session with the state untouched. -/
def handleDATA (s : Session) (d : DataInput) : Session × List String :=
  if s.state < stateRcptTo then (s, ["503 Send RCPT TO first"])
  else
    match d with
    | .readError => (s, [dataGoAhead])
    | .parseError => (resetTransaction s, [dataGoAhead, "550 Failed to process message"])
    | .sendError =>
        (resetTransaction s, [dataGoAhead, "451 Temporary failure, please try again later"])
    | .sendOk => (resetTransaction s, [dataGoAhead, "250 OK message queued"])

/-- `handleCommand` of `session.go`: dispatch one command to its handler
and collect the reply lines. -/
def step (s : Session) (c : Cmd) : Session × List String :=
  match c with
  | .ehlo arg => handleEHLO s true arg
  | .helo arg => handleEHLO s false arg
  | .starttls ok => handleSTARTTLS s ok
  | .auth a => handleAUTH s a
  | .mail arg => handleMAIL s arg
  | .rcpt arg => handleRCPT s arg
  | .data d => handleDATA s d
  | .rset => (resetTransaction s, ["250 OK"])
  | .noop => (s, ["250 OK"])
  | .quit => (s, ["221 Bye"])
  | .unknown => (s, ["500 Unrecognized command"])

/-- Run a whole command sequence, keeping only the final session state. -/
def runCmds (s : Session) (cs : List Cmd) : Session :=
  cs.foldl (fun s c => (step s c).1) s

/-- The transaction invariant of the state machine: the state index never
exceeds `RcptTo`, reaching `MailFrom` requires an accepted (non-empty)
envelope sender, and reaching `RcptTo` additionally requires at least one
accepted recipient. -/
def Inv (s : Session) : Prop :=
  s.state ≤ stateRcptTo
    ∧ (s.state = stateMailFrom → s.mailFrom ≠ "")
    ∧ (s.state = stateRcptTo → s.mailFrom ≠ "" ∧ s.rcptTo ≠ [])

end SmtpSession

namespace MimeWalk

/-!
## MIME message walker — `internal/parser/parser.go`

Byte contents are modelled as `List Nat` (one entry per byte).  The Go
standard-library calls the walker makes (`mail.ReadMessage`,
`mime.ParseMediaType`, `multipart.Reader.NextPart`, `io.ReadAll`) are
modelled by their outcomes, carried in the input structure; the walker's
own control flow — which outcomes become errors, which become warnings,
how parts are classified and how filenames are resolved — is translated
from the source.  Base64 decoding (`encoding/base64`) is implemented in
full below.
-/

/-- The decoded `email.Email` result, fields as in `internal/email`. -/
structure Attachment where
  filename : String
  contentType : String
  content : List Nat
deriving Repr, DecidableEq

structure Email where
  fromAddr : String
  toAddrs : List String
  ccAddrs : List String
  bccAddrs : List String
  subject : String
  textBody : List Nat
  htmlBody : List Nat
  attachments : List Attachment
  messageID : String
deriving Repr, DecidableEq

def emptyEmail : Email :=
  { fromAddr := "", toAddrs := [], ccAddrs := [], bccAddrs := [], subject := "",
    textBody := [], htmlBody := [], attachments := [], messageID := "" }

/-- Value of one base64 alphabet byte (`A-Z a-z 0-9 + /`), or `none` for
a byte outside the standard alphabet. -/
def b64Val (b : Nat) : Option Nat :=
  if 65 ≤ b ∧ b ≤ 90 then some (b - 65)
  else if 97 ≤ b ∧ b ≤ 122 then some (b - 97 + 26)
  else if 48 ≤ b ∧ b ≤ 57 then some (b - 48 + 52)
  else if b = 43 then some 62
  else if b = 47 then some 63
  else none

/-- Decode a final group of two alphabet bytes into one output byte. -/
def b64Group2 (a b : Nat) : Option (List Nat) := do
  let va ← b64Val a
  let vb ← b64Val b
  pure [va * 4 + vb / 16]

/-- Decode a final group of three alphabet bytes into two output bytes. -/
def b64Group3 (a b c : Nat) : Option (List Nat) := do
  let va ← b64Val a
  let vb ← b64Val b
  let vc ← b64Val c
  pure [va * 4 + vb / 16, (vb % 16) * 16 + vc / 4]

/-- Decode a full group of four alphabet bytes into three output bytes. -/
def b64Group4 (a b c d : Nat) : Option (List Nat) := do
  let va ← b64Val a
  let vb ← b64Val b
  let vc ← b64Val c
  let vd ← b64Val d
  pure [va * 4 + vb / 16, (vb % 16) * 16 + vc / 4, (vc % 4) * 64 + vd]

/-- `base64.RawStdEncoding.DecodeString`: unpadded standard base64.  The
input is consumed four bytes at a time; a final group of two or three
bytes yields one or two bytes; a final group of one byte is corrupt. -/
def rawB64Decode : List Nat → Option (List Nat)
  | [] => some []
  | [_] => none
  | [a, b] => b64Group2 a b
  | [a, b, c] => b64Group3 a b c
  | a :: b :: c :: d :: rest => do
      let g ← b64Group4 a b c d
      let r ← rawB64Decode rest
      pure (g ++ r)

/-- `base64.StdEncoding.DecodeString`: padded standard base64.  The input
length must be a multiple of four; `=` may appear only as the final one or
two bytes of the input. -/
def padB64Decode : List Nat → Option (List Nat)
  | [] => some []
  | a :: b :: c :: d :: rest =>
      if d = 61 then
        if rest = [] then
          if c = 61 then b64Group2 a b else b64Group3 a b c
        else none
      else do
        let g ← b64Group4 a b c d
        let r ← padB64Decode rest
        pure (g ++ r)
  | _ => none

/-- ASCII lower-casing of an encoding token (`strings.ToLower` restricted
to ASCII, which covers every `Content-Transfer-Encoding` token). -/
def lowerChar (c : Char) : Char :=
  if 'A' ≤ c ∧ c ≤ 'Z' then Char.ofNat (c.toNat + 32) else c

/-- `strings.TrimSpace` followed by ASCII `strings.ToLower`, as applied to
the `Content-Transfer-Encoding` header value in `readPartContent`. -/
def normalizeEncoding (s : String) : String :=
  String.mk ((SmtpSession.trimChars s.data).map lowerChar)

/-- `readPartContent` of `parser.go`, applied to the raw part bytes after
a successful `io.ReadAll`: for encoding `base64` strip every CR and LF
byte, attempt a padded decode and fall back to an unpadded decode (`none`
when both fail); every other encoding value returns the raw bytes. -/
def readPartContent (encoding : String) (raw : List Nat) : Option (List Nat) :=
  if normalizeEncoding encoding = "base64" then
    let cleaned := raw.filter (fun b => b ≠ 13 ∧ b ≠ 10)
    match padB64Decode cleaned with
    | some d => some d
    | none => rawB64Decode cleaned
  else some raw

/-- Outcome of `mime.ParseMediaType` on a part's (defaulted) Content-Type
header, restricted to the results the walker reads: the media type and
the `boundary` and `name` parameters. -/
structure MediaParse where
  mediaType : String
  boundary : Option String
  name : Option String
deriving Repr, DecidableEq

/-- One part as surfaced by `multipart.Reader.NextPart`, modelled by the
outcomes of the standard-library calls made on it.  `ctParse` is the
outcome of `mime.ParseMediaType` on the part Content-Type defaulted to
`text/plain` (line 112 of `parser.go`); `ctRawParse` is the media type
from re-parsing the raw, undefaulted Content-Type header inside
`extractFilename` (line 230), `none` when that parse fails.
`dispFilename` is `part.FileName()`, the RFC 2231-decoded `filename`
parameter of Content-Disposition (empty when absent). -/
structure PartInfo where
  ctParse : Option MediaParse
  ctRawParse : Option String
  disposition : String
  dispFilename : String
  encoding : String
  raw : List Nat
  readErr : Bool
deriving Repr, DecidableEq

/-- The stream of parts a `multipart.Reader` yields: parts in order, then
either a clean `io.EOF` or a read error from `NextPart`.  A part carries
its own nested stream, consulted only when the part is itself
multipart. -/
inductive PStream where
  | eof : PStream
  | readError : PStream
  | part (p : PartInfo) (nested : PStream) (rest : PStream) : PStream
deriving Repr, DecidableEq

/-- `strings.HasPrefix` via the character-list test of the session
model. -/
def strHasPfx (s p : String) : Bool :=
  SmtpSession.startsWithChars s.data p.data

/-- `extractFilename` of `parser.go`: the Content-Disposition filename if
non-empty, else the Content-Type `name` parameter, else
`attachment.<subtype>` when the raw Content-Type header re-parses and its
media type splits on `/`, else the literal `attachment`. -/
def extractFilename (p : PartInfo) : String :=
  if p.dispFilename ≠ "" then p.dispFilename
  else
    match p.ctParse.bind (fun m => m.name) with
    | some n => if n ≠ "" then n else extractFilenameFallback p
    | none => extractFilenameFallback p
where
  /-- The synthesised fallback name of lines 229-236 of `parser.go`. -/
  extractFilenameFallback (p : PartInfo) : String :=
    match p.ctRawParse with
    | some mt =>
        -- `strings.SplitN(mediaType, "/", 2)`: two pieces iff a `/` occurs
        if '/' ∈ mt.data then
          "attachment." ++ String.mk ((mt.data.dropWhile (fun c => c ≠ '/')).drop 1)
        else "attachment"
    | none => "attachment"

/-- `parseMultipart` of `parser.go` as a fold over the part stream.  The
walker threads the partially built `Email` (the Go code mutates `result`
through a pointer, so work done before a failure persists) and reports
whether it finished without error; the only error source is a `NextPart`
failure at the walker's own level — a nested walker's failure is
downgraded to a warning (lines 131-135). -/
def runMultipart : PStream → Email → Email × Bool
  | .eof, e => (e, true)
  | .readError, e => (e, false)
  | .part p nested rest, e =>
      match p.ctParse with
      | none => runMultipart rest e
      | some m =>
          if strHasPfx m.mediaType "multipart/" then
            if m.boundary.getD "" = "" then runMultipart rest e
            else runMultipart rest (runMultipart nested e).1
          else if p.readErr then runMultipart rest e
          else
            match readPartContent p.encoding p.raw with
            | none => runMultipart rest e
            | some content =>
                if strHasPfx p.disposition "attachment" then
                  runMultipart rest
                    { e with attachments := e.attachments ++
                        [⟨extractFilename p, m.mediaType, content⟩] }
                else if m.mediaType = "text/plain" then
                  runMultipart rest
                    (if e.textBody = [] then { e with textBody := content } else e)
                else if m.mediaType = "text/html" then
                  runMultipart rest
                    (if e.htmlBody = [] then { e with htmlBody := content } else e)
                else
                  let fn := extractFilename p
                  if fn ≠ "" then
                    runMultipart rest
                      { e with attachments := e.attachments ++
                          [⟨fn, m.mediaType, content⟩] }
                  else runMultipart rest e

/-- Outcome of `mime.ParseMediaType` on the message's Content-Type header
after defaulting an absent header to `text/plain` (lines 44-49 of
`parser.go`). -/
inductive CTOutcome where
  | absent
  | unparseable
  | parsed (mediaType : String) (boundary : Option String)
deriving Repr, DecidableEq

/-- The input to `Parse`, modelled by the outcomes of the
standard-library calls it makes.  `headers` carries the header-derived
fields (`From`, `Subject`, `Message-Id` and the parsed `To`/`Cc`/`Bcc`
lists) that `Parse` copies into the result; `bodyReadErr` is the outcome
of `io.ReadAll(msg.Body)` on the non-multipart paths; `stream` is the
multipart part stream on the multipart path. -/
inductive ParseInput where
  | malformed
  | msg (hdrFrom hdrSubject hdrMessageID : String)
      (hdrTo hdrCc hdrBcc : List String)
      (ct : CTOutcome) (bodyReadErr : Bool) (body : List Nat) (stream : PStream)
deriving Repr, DecidableEq

/-- `Parse` of `parser.go`: fail on an unparseable top-level message; on
an unparseable Content-Type read the whole body as text (failing only if
the read fails); on a multipart type require a non-empty boundary and run
the walker; otherwise read the body into the text or HTML slot. -/
def Parse : ParseInput → Except String Email
  | .malformed => .error "failed to parse message"
  | .msg hFrom hSubject hMsgID hTo hCc hBcc ct bodyReadErr body stream =>
      let base : Email :=
        { emptyEmail with
            fromAddr := hFrom, subject := hSubject, messageID := hMsgID,
            toAddrs := hTo, ccAddrs := hCc, bccAddrs := hBcc }
      match ct with
      | .unparseable =>
          if bodyReadErr then .error "failed to read message body"
          else .ok { base with textBody := body }
      | .absent =>
          -- an absent header defaults to `text/plain`, which parses
          if bodyReadErr then .error "failed to read message body"
          else .ok { base with textBody := body }
      | .parsed mt boundary =>
          if strHasPfx mt "multipart/" then
            if boundary.getD "" = "" then .error "multipart message missing boundary"
            else
              match runMultipart stream base with
              | (e, true) => .ok e
              | (_, false) => .error "failed to parse multipart message"
          else
            if bodyReadErr then .error "failed to read message body"
            else if mt = "text/plain" then .ok { base with textBody := body }
            else if mt = "text/html" then .ok { base with htmlBody := body }
            else .ok { base with textBody := body }

/-- Whether the top-level part stream ends in a `NextPart` read failure
(the walker visits every part and never stops early, so the terminal
marker alone decides the walker's success). -/
def streamReadFails : PStream → Bool
  | .eof => false
  | .readError => true
  | .part _ _ rest => streamReadFails rest

/-- The three error conditions named by the specification, phrased from
the spec's words: (a) the top-level message is unparseable, (b) a
multipart content type is declared without a boundary parameter, (c)
reading the body fails (for a multipart body, the `NextPart` stream
ends in a read failure). -/
def specErrorCondition : ParseInput → Prop
  | .malformed => True
  | .msg _ _ _ _ _ _ ct bodyReadErr _ stream =>
      match ct with
      | .unparseable => bodyReadErr = true
      | .absent => bodyReadErr = true
      | .parsed mt boundary =>
          if strHasPfx mt "multipart/" then
            boundary.getD "" = "" ∨ streamReadFails stream = true
          else bodyReadErr = true

instance : ∀ i, Decidable (specErrorCondition i) := by
  intro i
  unfold specErrorCondition
  match i with
  | .malformed => exact inferInstanceAs (Decidable True)
  | .msg _ _ _ _ _ _ ct _ _ _ =>
      match ct with
      | .unparseable => exact inferInstanceAs (Decidable _)
      | .absent => exact inferInstanceAs (Decidable _)
      | .parsed _ _ => dsimp only; split <;> exact inferInstanceAs (Decidable _)

end MimeWalk

namespace GraphSend

/-!
## Microsoft Graph provider — `internal/provider/graph/graph.go`

`Send` is a bounded retry loop (`maxRetries = 3`, so at most four
attempts).  Each attempt's HTTP outcome is supplied by an oracle indexed
by the attempt number; the classification of an outcome
(`classifyError`), the retry/return decisions and the sleeps are
translated from the source.  Delays are in whole seconds
(`baseRetryDelay = 1s`).  The model fixes an uncancelled context: every
`sleepWithContext` returns normally (a cancellation would abort the send
with an error, a path none of the claims exercises).
-/

def maxRetries : Nat := 3

/-- `backoffDelay` of `graph.go`: `1s` doubled `attempt` times. -/
def backoffDelay (attempt : Nat) : Nat := 2 ^ attempt

/-- `retryAfterDelay` of `graph.go`: the `Retry-After` header parsed as
integer seconds when present, parsable and positive, else the exponential
backoff.  `none` models both an absent header and an unparseable one
(`strconv.Atoi` failure), which the source treats identically. -/
def retryAfterDelay (retryAfter : Option Int) (attempt : Nat) : Nat :=
  match retryAfter with
  | none => backoffDelay attempt
  | some s => if 0 < s then s.toNat else backoffDelay attempt

/-- The classification fields of `sendError` as set by `classifyError`:
`400`/`403` permanent; `401`, `429` and any `5xx` transient; every other
status permanent. -/
structure SendErrorClass where
  permanent : Bool
  transient : Bool
deriving Repr, DecidableEq

def classifyError (statusCode : Nat) : SendErrorClass :=
  if statusCode = 400 ∨ statusCode = 403 then ⟨true, false⟩
  else if statusCode = 401 then ⟨false, true⟩
  else if statusCode = 429 then ⟨false, true⟩
  else if 500 ≤ statusCode then ⟨false, true⟩
  else ⟨true, false⟩

/-- Outcome of one `doSendRequest` attempt: token acquisition failure (a
plain error, returned to the caller as-is), a transport error (a
transient `sendError` with no status code), or an HTTP status with
optional `Retry-After` seconds, where `200`/`202` mean success. -/
inductive Attempt where
  | tokenError
  | transportError
  | status (code : Nat) (retryAfter : Option Int)
deriving Repr, DecidableEq

/-- How a `Send` call ends. -/
inductive SendResult where
  | success
  | errToken
  | errRefreshFailed
  | errPermanent (code : Nat)
  | errExhausted
deriving Repr, DecidableEq

/-- The observable trace of one `Send` call: its result, the number of
`sendMail` HTTP requests issued, the number of `ForceRefresh` calls on
the token cache, and the backoff sleeps performed, in order and in
seconds. -/
structure SendTrace where
  result : SendResult
  requests : Nat
  refreshes : Nat
  sleeps : List Nat
deriving Repr, DecidableEq

/-- Prepend one request (and optionally a refresh or a sleep) to a
trace. -/
def SendTrace.afterRequest (t : SendTrace) (refresh : Bool) (sleep : Option Nat) :
    SendTrace :=
  { t with
      requests := t.requests + 1
      refreshes := t.refreshes + (if refresh then 1 else 0)
      sleeps := (sleep.toList) ++ t.sleeps }

/-- The body of `GraphProvider.Send`'s retry loop.  `fuel` is the number
of loop iterations left (`maxRetries + 1 - attempt`), `attempt` the
current loop index, `tokenRefreshed` the one-shot refresh flag;
`refreshOk` tells whether a `ForceRefresh` would succeed.  On a 401 with
the flag unset the token is force-refreshed and the loop continues
without sleeping; on a 429 the `Retry-After` delay is slept; on any other
transient error the exponential backoff is slept — in all three cases a
loop iteration (retry slot) is consumed. -/
def sendAux (oracle : Nat → Attempt) (refreshOk : Bool) :
    Nat → Nat → Bool → SendTrace
  | 0, _, _ => ⟨.errExhausted, 0, 0, []⟩
  | fuel + 1, attempt, tokenRefreshed =>
      match oracle attempt with
      | .tokenError => ⟨.errToken, 1, 0, []⟩
      | .transportError =>
          (sendAux oracle refreshOk fuel (attempt + 1) tokenRefreshed).afterRequest
            false (some (backoffDelay attempt))
      | .status code retryAfter =>
          if code = 202 ∨ code = 200 then ⟨.success, 1, 0, []⟩
          else if (classifyError code).permanent then ⟨.errPermanent code, 1, 0, []⟩
          else if code = 401 ∧ ¬ tokenRefreshed then
            if refreshOk then
              (sendAux oracle refreshOk fuel (attempt + 1) true).afterRequest
                true none
            else ⟨.errRefreshFailed, 1, 0, []⟩
          else if code = 429 then
            (sendAux oracle refreshOk fuel (attempt + 1) tokenRefreshed).afterRequest
              false (some (retryAfterDelay retryAfter attempt))
          else if (classifyError code).transient then
            (sendAux oracle refreshOk fuel (attempt + 1) tokenRefreshed).afterRequest
              false (some (backoffDelay attempt))
          else ⟨.errPermanent code, 1, 0, []⟩

/-- `GraphProvider.Send`: run the loop from attempt 0 with an unset
refresh flag and `maxRetries + 1` iterations available. -/
def send (oracle : Nat → Attempt) (refreshOk : Bool) : SendTrace :=
  sendAux oracle refreshOk (maxRetries + 1) 0 false

end GraphSend

namespace TokenCacheM

/-!
## Graph token cache — `internal/provider/graph/auth.go`

The cached pair `(accessToken, expiresAt)` with `refresh` modelled over
the outcome of the token-endpoint HTTP exchange.  Times are in seconds
(`Int`), `tokenExpiryBuffer = 5 min = 300 s`.
-/

def tokenExpiryBuffer : Int := 300

/-- The mutable fields of `tokenCache` (the mutex serialises access; each
call is modelled as one atomic step). -/
structure CacheState where
  accessToken : String
  expiresAt : Int
deriving Repr, DecidableEq

/-- Outcome of the token-endpoint exchange inside `refresh`: the POST
fails, reading the response body fails, a non-200 status, an unparseable
JSON body, or a parsed response with its `access_token` and `expires_in`
fields (an empty `access_token` is rejected by `refresh` itself). -/
inductive RefreshOutcome where
  | requestError
  | readError
  | badStatus (code : Nat)
  | badJSON
  | parsed (accessToken : String) (expiresIn : Int)
deriving Repr, DecidableEq

/-- Whether the refresh attempt fails, per the outcome: anything but a
parsed response with a non-empty `access_token`. -/
def RefreshFails : RefreshOutcome → Prop
  | .parsed t _ => t = ""
  | _ => True

instance : ∀ o, Decidable (RefreshFails o) := by
  intro o
  unfold RefreshFails
  match o with
  | .parsed _ _ => exact inferInstanceAs (Decidable _)
  | .requestError | .readError | .badStatus _ | .badJSON =>
      exact inferInstanceAs (Decidable True)

/-- `tokenCache.refresh`: every failure returns an error before the
cached fields are touched; on success store the token and
`now + expires_in − 5 min`. -/
def refresh (st : CacheState) (now : Int) (o : RefreshOutcome) :
    Except String String × CacheState :=
  match o with
  | .requestError => (.error "token request failed", st)
  | .readError => (.error "failed to read token response", st)
  | .badStatus code => (.error ("token endpoint returned " ++ toString code), st)
  | .badJSON => (.error "failed to parse token response", st)
  | .parsed t expiresIn =>
      if t = "" then (.error "token response missing access_token", st)
      else (.ok t, { accessToken := t, expiresAt := now + expiresIn - tokenExpiryBuffer })

/-- `tokenCache.Token`: return the cached token while it is present and
unexpired (`accessToken != "" && now < expiresAt`), else refresh. -/
def token (st : CacheState) (now : Int) (o : RefreshOutcome) :
    Except String String × CacheState :=
  if st.accessToken ≠ "" ∧ now < st.expiresAt then (.ok st.accessToken, st)
  else refresh st now o

/-- `tokenCache.ForceRefresh`: clear the cached pair, then refresh. -/
def forceRefresh (_st : CacheState) (now : Int) (o : RefreshOutcome) :
    Except String String × CacheState :=
  refresh { accessToken := "", expiresAt := 0 } now o

end TokenCacheM

namespace SesSend

/-!
## SES provider — `internal/provider/ses/ses.go`

`Send` selects raw MIME when attachments are present, else the simple
format, then retries the `SendEmail` call blindly: any error is retried,
with a backoff sleep *before* each retry attempt.  Delays are in whole
seconds (`baseRetryDelay = 1s`); the model fixes an uncancelled context,
as for the Graph provider.
-/

def maxRetries : Nat := 3

/-- `backoffDelay` of `ses.go`: `1s` doubled `attempt` times (identical
to the Graph provider's function). -/
def backoffDelay (attempt : Nat) : Nat := 2 ^ attempt

/-- Outcome of one `client.SendEmail` call. -/
inductive Attempt where
  | ok
  | apiError
deriving Repr, DecidableEq

inductive SendResult where
  | success
  | errExhausted
deriving Repr, DecidableEq

/-- Observable trace of one SES `Send`: result, number of `SendEmail`
calls, and sleeps in order (seconds). -/
structure SendTrace where
  result : SendResult
  requests : Nat
  sleeps : List Nat
deriving Repr, DecidableEq

/-- The body of `SESProvider.Send`'s retry loop: on every iteration with
`attempt > 0` sleep `backoffDelay(attempt)` first, then call the API. -/
def sendAux (oracle : Nat → Attempt) : Nat → Nat → SendTrace
  | 0, _ => ⟨.errExhausted, 0, []⟩
  | fuel + 1, attempt =>
      let pre : List Nat := if 0 < attempt then [backoffDelay attempt] else []
      match oracle attempt with
      | .ok => ⟨.success, 1, pre⟩
      | .apiError =>
          let rest := sendAux oracle fuel (attempt + 1)
          ⟨rest.result, rest.requests + 1, pre ++ rest.sleeps⟩

/-- `SESProvider.Send`'s retry loop from attempt 0. -/
def send (oracle : Nat → Attempt) : SendTrace :=
  sendAux oracle (maxRetries + 1) 0

/-!
### Raw MIME builder — `buildRawMessage`

Used by `Send` when the message has attachments.  The multipart boundary
is random in the source and is a parameter here.
-/

/-- The fields of the `email.Email` model the raw builder reads. -/
structure Email where
  toAddrs : List String
  ccAddrs : List String
  subject : String
  textBody : String
  htmlBody : String
  attachments : List MimeWalk.Attachment
  messageID : String
deriving Repr, DecidableEq

/-- One MIME part as written by `multipart.Writer.CreatePart`: its header
fields in the order set, and its body bytes rendered as a string. -/
structure RawPart where
  contentType : String
  transferEncoding : Option String
  disposition : Option String
  body : String
deriving Repr, DecidableEq

/-- Byte of the base64 alphabet for a 6-bit value. -/
def b64Char (v : Nat) : Char :=
  if v < 26 then Char.ofNat (65 + v)
  else if v < 52 then Char.ofNat (97 + (v - 26))
  else if v < 62 then Char.ofNat (48 + (v - 52))
  else if v = 62 then '+'
  else '/'

/-- `base64.StdEncoding.EncodeToString`: standard padded base64. -/
def base64Encode : List Nat → List Char
  | [] => []
  | [a] => [b64Char (a / 4), b64Char (a % 4 * 16), '=', '=']
  | [a, b] => [b64Char (a / 4), b64Char (a % 4 * 16 + b / 16), b64Char (b % 16 * 4), '=']
  | a :: b :: c :: rest =>
      b64Char (a / 4) :: b64Char (a % 4 * 16 + b / 16)
        :: b64Char (b % 16 * 4 + c / 64) :: b64Char (c % 64)
        :: base64Encode rest

/-- Split a character list into chunks of at most 76 characters (the
fuel argument, fixed to the list length, makes the recursion structural:
every step consumes at least one character). -/
def chunks76Aux : Nat → List Char → List (List Char)
  | 0, _ => []
  | _, [] => []
  | fuel + 1, c :: cs => ((c :: cs).take 76) :: chunks76Aux fuel ((c :: cs).drop 76)

/-- Split a character list into chunks of at most 76 characters. -/
def chunks76 (cs : List Char) : List (List Char) :=
  chunks76Aux cs.length cs

/-- `encodeBase64WithLineBreaks` of `ses.go`: base64 with a CRLF every 76
characters. -/
def encodeBase64WithLineBreaks (data : List Nat) : String :=
  String.intercalate "\r\n" ((chunks76 (base64Encode data)).map String.mk)

/-- `mime.QEncoding.Encode("UTF-8", s)`, as applied to attachment
filenames: the string itself when it needs no encoding (printable ASCII
without `=`, `?` or `_`), else an RFC 2047 Q-encoded word.  The encoded
branch is abstracted to its RFC 2047 frame; no claim under verification
depends on its exact payload. -/
def qEncodeFilename (s : String) : String :=
  if s.data.all (fun c =>
      32 ≤ c.toNat ∧ c.toNat ≤ 126 ∧ c ≠ '=' ∧ c ≠ '?' ∧ c ≠ '_') then s
  else "=?utf-8?q?" ++ s ++ "?="

/-- The body part (at most one) written by lines 200-216 of `ses.go`:
`text/html; charset=UTF-8` when the HTML body is non-empty, else
`text/plain; charset=UTF-8` when the text body is non-empty, else no
part at all. -/
def bodyParts (msg : Email) : List RawPart :=
  if msg.htmlBody ≠ "" then
    [⟨"text/html; charset=UTF-8", none, none, msg.htmlBody⟩]
  else if msg.textBody ≠ "" then
    [⟨"text/plain; charset=UTF-8", none, none, msg.textBody⟩]
  else []

/-- The attachment parts written by lines 218-233 of `ses.go`. -/
def attachmentParts (msg : Email) : List RawPart :=
  msg.attachments.map (fun a =>
    ⟨a.contentType, some "base64",
      some ("attachment; filename=" ++ qEncodeFilename a.filename),
      encodeBase64WithLineBreaks a.content⟩)

/-- The built raw message: header lines in the order written by
`buildRawMessage`, the multipart boundary, and the parts in order. -/
structure RawMsg where
  headerLines : List String
  boundary : String
  parts : List RawPart
deriving Repr, DecidableEq

/-- `buildRawMessage` of `ses.go` (the `sender` argument is the
provider's configured sender address, the boundary the writer's random
boundary). -/
def buildRawMessage (sender : String) (msg : Email) (boundary : String) : RawMsg :=
  { headerLines :=
      ["From: " ++ sender]
        ++ (if msg.toAddrs ≠ [] then ["To: " ++ String.intercalate ", " msg.toAddrs] else [])
        ++ (if msg.ccAddrs ≠ [] then ["Cc: " ++ String.intercalate ", " msg.ccAddrs] else [])
        ++ ["Subject: " ++ msg.subject]
        ++ (if msg.messageID ≠ "" then ["Message-ID: " ++ msg.messageID] else [])
        ++ ["MIME-Version: 1.0",
            "Content-Type: multipart/mixed; boundary=\x22" ++ boundary ++ "\x22"]
    boundary := boundary
    parts := bodyParts msg ++ attachmentParts msg }

end SesSend

/-!
## Theorems

Each claim of the specification gets one theorem below (with a
counterexample theorem where the claim fails on the code, and a witness
theorem where the main theorem carries hypotheses).
-/

namespace SmtpSession

/-- `resetTransaction` always re-establishes the transaction invariant. -/
lemma inv_resetTransaction (s : Session) : Inv (resetTransaction s) := by
  simp only [Inv, resetTransaction, stateAuthOK, stateGreeted, stateMailFrom, stateRcptTo]
  split_ifs <;> simp <;> omega

/-- Every command handler preserves the transaction invariant. -/
lemma inv_step (s : Session) (c : Cmd) (hs : Inv s) : Inv (step s c).1 := by
  obtain ⟨hle, h3, h4⟩ := hs
  cases c with
  | ehlo arg =>
      simp only [step, handleEHLO]
      split_ifs <;>
        first
          | exact ⟨hle, h3, h4⟩
          | refine ⟨?_, ?_, ?_⟩ <;> simp [stateGreeted, stateMailFrom, stateRcptTo]
  | helo arg =>
      simp only [step, handleEHLO]
      split_ifs <;>
        first
          | exact ⟨hle, h3, h4⟩
          | refine ⟨?_, ?_, ?_⟩ <;> simp [stateGreeted, stateMailFrom, stateRcptTo]
  | starttls ok =>
      simp only [step, handleSTARTTLS]
      split_ifs <;>
        first
          | exact ⟨hle, h3, h4⟩
          | refine ⟨?_, ?_, ?_⟩ <;> simp [stateConnected, stateMailFrom, stateRcptTo]
  | auth a =>
      rcases a with x | x | _ <;> try cases x
      all_goals
        simp only [step, handleAUTH, authExchangeStep]
      all_goals
        split_ifs <;>
          first
            | exact ⟨hle, h3, h4⟩
            | refine ⟨?_, ?_, ?_⟩ <;> simp [stateAuthOK, stateMailFrom, stateRcptTo]
  | mail arg =>
      simp only [step, handleMAIL]
      split_ifs <;>
        first
          | exact ⟨hle, h3, h4⟩
          | (refine ⟨?_, ?_, ?_⟩ <;> simp [stateMailFrom, stateRcptTo] <;> assumption)
  | rcpt arg =>
      have hmf : stateMailFrom ≤ s.state → s.mailFrom ≠ "" := by
        intro hge
        simp only [stateMailFrom] at hge
        simp only [stateRcptTo] at hle
        rcases Nat.lt_or_ge s.state 4 with hlt | _
        · exact h3 (by simp only [stateMailFrom]; omega)
        · exact (h4 (by simp only [stateRcptTo]; omega)).1
      simp only [step, handleRCPT]
      split_ifs with h1 <;>
        first
          | exact ⟨hle, h3, h4⟩
          | (refine ⟨?_, ?_, ?_⟩ <;> simp [stateMailFrom, stateRcptTo] <;>
              exact hmf (le_of_not_lt h1))
  | data d =>
      simp only [step, handleDATA]
      split_ifs
      · exact ⟨hle, h3, h4⟩
      · cases d <;> simp only []
        · exact ⟨hle, h3, h4⟩
        · exact inv_resetTransaction _
        · exact inv_resetTransaction _
        · exact inv_resetTransaction _
  | rset =>
      simp only [step]
      exact inv_resetTransaction _
  | noop => exact ⟨hle, h3, h4⟩
  | quit => exact ⟨hle, h3, h4⟩
  | unknown => exact ⟨hle, h3, h4⟩

/-- The invariant holds after any command sequence run from any session
satisfying it. -/
lemma inv_foldl (cs : List Cmd) (s : Session) (hs : Inv s) :
    Inv (cs.foldl (fun s c => (step s c).1) s) := by
  induction cs generalizing s with
  | nil => exact hs
  | cons c cs ih => exact ih _ (inv_step s c hs)

/-- The invariant holds for every session reachable from a fresh one. -/
lemma inv_runCmds (hostname : String) (authE tlsC : Bool) (cs : List Cmd) :
    Inv (runCmds (initSession hostname authE tlsC) cs) := by
  refine inv_foldl cs _ ?_
  simp only [Inv, initSession, stateMailFrom, stateRcptTo, stateConnected]
  exact ⟨by omega, fun h => by omega, fun h => by omega⟩

/-- C1.  For every command sequence run from a fresh session, the DATA
handler emits the `354` go-ahead (entering the DATA phase) only when the
session is in state `RcptTo`, in which a MAIL FROM command was previously
accepted (non-empty envelope sender) and at least one RCPT TO command was
accepted afterwards in the current transaction (non-empty recipient
list, cleared by every accepted MAIL FROM); a DATA command in any earlier
state is answered with the single reply `503 Send RCPT TO first` and
leaves the session unchanged. -/
theorem c1_data_requires_mail_and_rcpt (hostname : String) (authE tlsC : Bool)
    (cs : List Cmd) (d : DataInput) :
    (dataGoAhead ∈ (step (runCmds (initSession hostname authE tlsC) cs) (.data d)).2 →
        (runCmds (initSession hostname authE tlsC) cs).state = stateRcptTo
          ∧ (runCmds (initSession hostname authE tlsC) cs).mailFrom ≠ ""
          ∧ (runCmds (initSession hostname authE tlsC) cs).rcptTo ≠ [])
      ∧ ((runCmds (initSession hostname authE tlsC) cs).state < stateRcptTo →
          step (runCmds (initSession hostname authE tlsC) cs) (.data d)
            = (runCmds (initSession hostname authE tlsC) cs, ["503 Send RCPT TO first"])) := by
  obtain ⟨hle, h3, h4⟩ := inv_runCmds hostname authE tlsC cs
  set s := runCmds (initSession hostname authE tlsC) cs with hsdef
  constructor
  · intro hmem
    by_cases hlt : s.state < stateRcptTo
    · exfalso
      simp only [step, handleDATA, if_pos hlt] at hmem
      revert hmem
      decide
    · have hst : s.state = stateRcptTo := le_antisymm hle (le_of_not_lt hlt)
      exact ⟨hst, (h4 hst).1, (h4 hst).2⟩
  · intro hlt
    simp only [step, handleDATA, if_pos hlt]

/-- Witness for C1 at a concrete command sequence: after
`EHLO`, `MAIL FROM:<a@x>`, `RCPT TO:<b@x>` the DATA go-ahead is emitted
in a state with a recorded sender and recipient, and from a fresh
session DATA is refused with `503` and no state change. -/
theorem c1_data_requires_mail_and_rcpt_witness :
    ((runCmds (initSession "mail" false false)
        [.ehlo "c", .mail "FROM:<a@x>", .rcpt "TO:<b@x>"]).state = stateRcptTo
      ∧ (runCmds (initSession "mail" false false)
          [.ehlo "c", .mail "FROM:<a@x>", .rcpt "TO:<b@x>"]).mailFrom ≠ ""
      ∧ (runCmds (initSession "mail" false false)
          [.ehlo "c", .mail "FROM:<a@x>", .rcpt "TO:<b@x>"]).rcptTo ≠ [])
      ∧ step (initSession "mail" false false) (.data .sendOk)
          = (initSession "mail" false false, ["503 Send RCPT TO first"]) := by
  constructor
  · exact (c1_data_requires_mail_and_rcpt "mail" false false
      [.ehlo "c", .mail "FROM:<a@x>", .rcpt "TO:<b@x>"] .sendOk).1 (by decide)
  · exact (c1_data_requires_mail_and_rcpt "mail" false false [] .sendOk).2 (by decide)

/-- Counterexample to C3 as stated.  The EHLO reply advertises
`250-SIZE 10485760` — the hard-coded `maxMessageSize` constant of
`session.go` (10 MiB) — and not the configured maximum message size,
whose default `defaultMaxMessageSize` is 26 214 400 bytes; the line
`250-SIZE 26214400` does not occur in the reply. -/
theorem c3_size_counterexample :
    (step (initSession "h" false false) (.ehlo "client")).2
        = ["250-h Hello client", "250-SIZE 10485760", "250 OK"]
      ∧ maxMessageSize = 10485760
      ∧ defaultMaxMessageSize = 26214400
      ∧ ("250-SIZE " ++ toString defaultMaxMessageSize)
          ∉ (step (initSession "h" false false) (.ehlo "client")).2 := by
  refine ⟨by decide, by decide, by decide, by decide⟩

/-- C3 (amended).  Every accepted EHLO reply block advertises
`250-SIZE <maxMessageSize>` where `maxMessageSize` is the session
package's hard-coded constant `10 * 1024 * 1024` (10 MiB); the
configured `smtp.maxMessageSize` (default 26 214 400) is not consulted
by the session, and the advertised value differs from that default. -/
theorem c3_size_amended (s : Session) (arg : String) (h : arg ≠ "") :
    ("250-SIZE " ++ toString maxMessageSize) ∈ (step s (.ehlo arg)).2
      ∧ maxMessageSize = 10 * 1024 * 1024
      ∧ maxMessageSize ≠ defaultMaxMessageSize := by
  refine ⟨?_, rfl, by decide⟩
  simp only [step, handleEHLO, if_neg h]
  simp

/-- Witness for C3 (amended) at a concrete session and argument. -/
theorem c3_size_amended_witness :
    ("250-SIZE " ++ toString maxMessageSize)
        ∈ (step (initSession "h" true true) (.ehlo "client")).2
      ∧ maxMessageSize = 10 * 1024 * 1024
      ∧ maxMessageSize ≠ defaultMaxMessageSize :=
  c3_size_amended (initSession "h" true true) "client" (by decide)

/-- Counterexample to C5 as stated.  Three commands the specification's
transition table leaves unlisted do not receive `503`: a MAIL FROM in
state `MailFrom` is accepted with `250 OK` (starting a new transaction),
an AUTH in state `AuthOK` re-authenticates with `235`, and a STARTTLS in
state `Connected` (not `Greeted`) proceeds with `220` when TLS is
configured. -/
theorem c5_unlisted_counterexample :
    (step (runCmds (initSession "h" false false) [.ehlo "c", .mail "FROM:<a@x>"])
        (.mail "FROM:<b@x>")).2 = ["250 OK"]
      ∧ (runCmds (initSession "h" false false) [.ehlo "c", .mail "FROM:<a@x>"]).state
          = stateMailFrom
      ∧ (step (runCmds (initSession "h" true false) [.ehlo "c", .auth (.plain .ok)])
          (.auth (.plain .ok))).2 = ["235 Authentication successful"]
      ∧ (runCmds (initSession "h" true false) [.ehlo "c", .auth (.plain .ok)]).state
          = stateAuthOK
      ∧ (step (initSession "h" false true) (.starttls true)).2 = ["220 Ready to start TLS"]
      ∧ (initSession "h" false true).state ≠ stateGreeted := by
  refine ⟨by decide, by decide, by decide, by decide, by decide, by decide⟩

/-- C5 (amended).  The three particulars behave as the code does, not as
the transition table prescribes: (i) MAIL FROM with a well-formed,
non-empty address is accepted in states `MailFrom` and `RcptTo` and
starts a new transaction with reply `250 OK`; (ii) AUTH PLAIN with the
correct credentials succeeds with `235` in every state from `Greeted`
upwards whenever auth is enabled; (iii) STARTTLS is gated only on TLS
being configured and not yet active — in any session state the reply is
`220 Ready to start TLS`. -/
theorem c5_unlisted_amended :
    (∀ (s : Session) (arg : String),
        s.state = stateMailFrom ∨ s.state = stateRcptTo →
        upperHasKeyword arg "FROM:" = true →
        extractAddress (String.mk (arg.data.drop 5)) ≠ "" →
        step s (.mail arg) =
          ({ s with
              mailFrom := extractAddress (String.mk (arg.data.drop 5))
              rcptTo := []
              dataBuffer := ""
              state := stateMailFrom }, ["250 OK"]))
      ∧ (∀ s : Session, stateGreeted ≤ s.state → s.authEnabled = true →
          step s (.auth (.plain .ok)) =
            ({ s with state := stateAuthOK }, ["235 Authentication successful"]))
      ∧ (∀ (s : Session) (hk : Bool), s.tlsConfigured = true → s.tlsActive = false →
          (step s (.starttls hk)).2 = ["220 Ready to start TLS"]) := by
  refine ⟨?_, ?_, ?_⟩
  · intro s arg hst hkw haddr
    have hauth : ¬ (s.authEnabled = true ∧ s.state < stateAuthOK) := by
      rcases hst with h | h <;>
        simp [h, stateAuthOK, stateMailFrom, stateRcptTo]
    have hgr : ¬ (s.state < stateGreeted) := by
      rcases hst with h | h <;>
        simp [h, stateGreeted, stateMailFrom, stateRcptTo]
    simp only [step, handleMAIL, if_neg hauth, if_neg hgr, hkw,
      not_true_eq_false, if_false, if_neg haddr]
  · intro s hge hauth
    have hgr : ¬ (s.state < stateGreeted) := by omega
    simp only [step, handleAUTH, if_neg hgr, hauth, not_true_eq_false,
      if_false, authExchangeStep]
  · intro s hk hconf hact
    cases hk <;> simp [step, handleSTARTTLS, hconf, hact]

/-- Witness for C5 (amended) at concrete sessions: a second MAIL FROM in
state `MailFrom`, a re-AUTH in state `AuthOK`, and a STARTTLS in state
`Connected`. -/
theorem c5_unlisted_amended_witness :
    step (runCmds (initSession "h" false false) [.ehlo "c", .mail "FROM:<a@x>"])
        (.mail "FROM:<b@x>") =
      ({ runCmds (initSession "h" false false) [.ehlo "c", .mail "FROM:<a@x>"] with
          mailFrom := extractAddress (String.mk (("FROM:<b@x>" : String).data.drop 5))
          rcptTo := []
          dataBuffer := ""
          state := stateMailFrom }, ["250 OK"])
      ∧ step (runCmds (initSession "h" true false) [.ehlo "c", .auth (.plain .ok)])
          (.auth (.plain .ok)) =
        ({ runCmds (initSession "h" true false) [.ehlo "c", .auth (.plain .ok)] with
            state := stateAuthOK }, ["235 Authentication successful"])
      ∧ (step (initSession "h" false true) (.starttls true)).2
          = ["220 Ready to start TLS"] := by
  refine ⟨?_, ?_, ?_⟩
  · exact c5_unlisted_amended.1 _ "FROM:<b@x>" (by decide) (by decide) (by decide)
  · exact c5_unlisted_amended.2.1 _ (by decide) (by decide)
  · exact c5_unlisted_amended.2.2 _ true (by decide) (by decide)

end SmtpSession

namespace GraphSend

/-- Over any send, at most one `ForceRefresh` happens: the loop refreshes
only while `tokenRefreshed` is unset and sets the flag with the refresh. -/
lemma sendAux_refreshes_le (oracle : Nat → Attempt) (refreshOk : Bool) :
    ∀ (fuel attempt : Nat) (refreshed : Bool),
      (sendAux oracle refreshOk fuel attempt refreshed).refreshes
        ≤ (if refreshed then 0 else 1) := by
  intro fuel
  induction fuel with
  | zero => intro attempt refreshed; simp [sendAux]
  | succ fuel ih =>
      intro attempt refreshed
      simp only [sendAux]
      cases oracle attempt with
      | tokenError => simp
      | transportError =>
          have h := ih (attempt + 1) refreshed
          simp only [SendTrace.afterRequest, Option.toList]
          simpa using h
      | status code ra =>
          dsimp only
          by_cases hs : code = 202 ∨ code = 200
          · simp [hs]
          · rw [if_neg hs]
            by_cases hperm : (classifyError code).permanent = true
            · rw [if_pos hperm]; simp
            · rw [if_neg hperm]
              by_cases h401 : code = 401 ∧ ¬ refreshed = true
              · rw [if_pos h401]
                by_cases hrok : refreshOk = true
                · rw [if_pos hrok]
                  have h0 : (sendAux oracle refreshOk fuel (attempt + 1) true).refreshes
                      = 0 :=
                    Nat.le_zero.mp (by simpa using ih (attempt + 1) true)
                  have hrf : refreshed = false := by simpa using h401.2
                  simp [SendTrace.afterRequest, h0, hrf]
                · rw [if_neg hrok]; simp
              · rw [if_neg h401]
                by_cases h429 : code = 429
                · rw [if_pos h429]
                  have h := ih (attempt + 1) refreshed
                  simp only [SendTrace.afterRequest, Option.toList]
                  simpa using h
                · rw [if_neg h429]
                  by_cases htr : (classifyError code).transient = true
                  · rw [if_pos htr]
                    have h := ih (attempt + 1) refreshed
                    simp only [SendTrace.afterRequest, Option.toList]
                    simpa using h
                  · rw [if_neg htr]; simp

end GraphSend

namespace GraphSend

/-- Counterexample to C2 as stated.  With attempt outcomes
401, 401, 202 (and a working token refresh), the second 401 is *not*
returned to the caller: the send performs a third `sendMail` request
after a 2-second backoff sleep and succeeds.  The trace is: 3 requests,
exactly 1 forced refresh (after the first 401, with no sleep), one
backoff sleep of 2 s (after the second 401), final result success. -/
theorem c2_second_401_counterexample :
    send (fun n => if n = 0 ∨ n = 1 then .status 401 none else .status 202 none) true
      = { result := .success, requests := 3, refreshes := 1, sleeps := [2] } := by
  decide

/-- One-step unfolding of the loop at a 401 with the refresh flag still
unset: force-refresh (when it succeeds) and continue immediately. -/
lemma sendAux_401_fresh (oracle : Nat → Attempt) (refreshOk : Bool)
    (fuel attempt : Nat) (ra : Option Int) (h : oracle attempt = .status 401 ra) :
    sendAux oracle refreshOk (fuel + 1) attempt false =
      if refreshOk then
        (sendAux oracle refreshOk fuel (attempt + 1) true).afterRequest true none
      else ⟨.errRefreshFailed, 1, 0, []⟩ := by
  simp only [sendAux, h]
  norm_num [classifyError]

/-- One-step unfolding of the loop at a 401 with the refresh flag already
set: the error is transient, so the loop sleeps the backoff delay and
retries. -/
lemma sendAux_401_refreshed (oracle : Nat → Attempt) (refreshOk : Bool)
    (fuel attempt : Nat) (ra : Option Int) (h : oracle attempt = .status 401 ra) :
    sendAux oracle refreshOk (fuel + 1) attempt true =
      (sendAux oracle refreshOk fuel (attempt + 1) true).afterRequest
        false (some (backoffDelay attempt)) := by
  simp only [sendAux, h]
  norm_num [classifyError]

/-- C2 (amended).  (i) Over any send at most one `ForceRefresh` occurs.
(ii) On a send whose first attempt returns 401 (refresh succeeding), the
loop refreshes exactly once and retries immediately: the trace is that
of the remaining loop (started at attempt 1 with the refresh flag set)
plus one request and the single refresh, with *no* sleep added — the 401
refresh-and-retry consumes a retry slot.  (iii) A 401 arriving when the
refresh flag is already set is handled as a transient error: the loop
sleeps the exponential backoff for the current attempt and retries; it
is not returned to the caller at that point. -/
theorem c2_first_401_refresh_subsequent_transient :
    (∀ (oracle : Nat → Attempt) (refreshOk : Bool),
        (send oracle refreshOk).refreshes ≤ 1)
      ∧ (∀ (oracle : Nat → Attempt) (ra : Option Int),
          oracle 0 = .status 401 ra →
          send oracle true =
            { result := (sendAux oracle true maxRetries 1 true).result
              requests := (sendAux oracle true maxRetries 1 true).requests + 1
              refreshes := 1
              sleeps := (sendAux oracle true maxRetries 1 true).sleeps })
      ∧ (∀ (oracle : Nat → Attempt) (refreshOk : Bool) (fuel attempt : Nat)
            (ra : Option Int),
          oracle attempt = .status 401 ra →
          sendAux oracle refreshOk (fuel + 1) attempt true =
            (sendAux oracle refreshOk fuel (attempt + 1) true).afterRequest
              false (some (backoffDelay attempt))) := by
  refine ⟨?_, ?_, ?_⟩
  · intro oracle refreshOk
    simpa using sendAux_refreshes_le oracle refreshOk (maxRetries + 1) 0 false
  · intro oracle ra h
    have h0 : (sendAux oracle true maxRetries 1 true).refreshes = 0 :=
      Nat.le_zero.mp (by simpa using sendAux_refreshes_le oracle true maxRetries 1 true)
    show sendAux oracle true (maxRetries + 1) 0 false = _
    rw [sendAux_401_fresh oracle true maxRetries 0 ra h, if_pos rfl]
    simp [SendTrace.afterRequest, h0]
  · exact fun oracle refreshOk fuel attempt ra h =>
      sendAux_401_refreshed oracle refreshOk fuel attempt ra h

/-- Witness for C2 (amended): a send whose first attempt yields 401 and
whose second succeeds.  Instantiating the theorem's part (ii) yields the
trace equation, whose right-hand side evaluates to success after exactly
2 requests, 1 refresh and no sleeps. -/
theorem c2_first_401_refresh_witness :
    send (fun n => if n = 0 then .status 401 none else .status 202 none) true
        = { result := (sendAux (fun n => if n = 0 then .status 401 none
                else .status 202 none) true maxRetries 1 true).result
            requests := (sendAux (fun n => if n = 0 then .status 401 none
                else .status 202 none) true maxRetries 1 true).requests + 1
            refreshes := 1
            sleeps := (sendAux (fun n => if n = 0 then .status 401 none
                else .status 202 none) true maxRetries 1 true).sleeps }
      ∧ send (fun n => if n = 0 then .status 401 none else .status 202 none) true
          = { result := .success, requests := 2, refreshes := 1, sleeps := [] } :=
  ⟨c2_first_401_refresh_subsequent_transient.2.1
      (fun n => if n = 0 then .status 401 none else .status 202 none) none rfl,
    by decide⟩

end GraphSend

namespace SesSend

/-- The loop makes at most one `SendEmail` call per remaining iteration. -/
lemma sesSendAux_requests_le (oracle : Nat → Attempt) :
    ∀ fuel attempt, (sendAux oracle fuel attempt).requests ≤ fuel := by
  intro fuel
  induction fuel with
  | zero => intro attempt; simp [sendAux]
  | succ fuel ih =>
      intro attempt
      simp only [sendAux]
      cases oracle attempt with
      | ok => simp
      | apiError =>
          have h := ih (attempt + 1)
          dsimp only
          omega

/-- Counterexample to C4 as stated.  When every `SendEmail` attempt
fails, the send makes 4 calls but the sleeps between consecutive
attempts are 2 s, 4 s and 8 s — `backoffDelay` is evaluated at the index
of the upcoming retry (1, 2, 3) — not the 1 s, 2 s, 4 s the claim
names. -/
theorem c4_backoff_counterexample :
    send (fun _ => .apiError)
        = { result := .errExhausted, requests := 4, sleeps := [2, 4, 8] }
      ∧ [2, 4, 8] ≠ [1, 2, 4] := by
  exact ⟨by decide, by decide⟩

/-- C4 (amended).  Every SES send makes at most `1 + maxRetries = 4`
`SendEmail` calls, and a send that fails on every attempt makes exactly
4 calls with sleeps of exactly 2 s, 4 s and 8 s between consecutive
attempts (the loop sleeps `backoffDelay(attempt)` at the start of
attempts 1, 2 and 3, and `backoffDelay` doubles 1 s `attempt` times). -/
theorem c4_retry_count_and_backoff :
    (∀ oracle : Nat → Attempt, (send oracle).requests ≤ 1 + maxRetries)
      ∧ (∀ oracle : Nat → Attempt, (∀ k, oracle k = .apiError) →
          send oracle = { result := .errExhausted, requests := 4, sleeps := [2, 4, 8] }) := by
  constructor
  · intro oracle
    have h := sesSendAux_requests_le oracle (maxRetries + 1) 0
    simpa [send, maxRetries] using h
  · intro oracle h
    show sendAux oracle (maxRetries + 1) 0 = _
    simp [sendAux, maxRetries, h 0, h 1, h 2, h 3, backoffDelay]

/-- Witness for C4 (amended) at the all-failing oracle. -/
theorem c4_retry_count_and_backoff_witness :
    send (fun _ => .apiError)
      = { result := .errExhausted, requests := 4, sleeps := [2, 4, 8] } :=
  c4_retry_count_and_backoff.2 (fun _ => .apiError) (fun _ => rfl)

end SesSend

namespace SesSend

/-- A sample email whose bodies are both empty but which carries one
attachment. -/
def bodylessEmail : Email :=
  { toAddrs := ["to@x"], ccAddrs := [], subject := "S",
    textBody := "", htmlBody := "",
    attachments := [⟨"f.bin", "application/octet-stream", [1, 2, 3]⟩],
    messageID := "" }

/-- Counterexample to C7 as stated.  For an email with one attachment and
both bodies empty, `buildRawMessage` writes *no* body part at all: the
parts list consists of exactly the single attachment part (recognisable
by its `base64` transfer encoding and attachment disposition), so there
is not "exactly one body part before the attachments". -/
theorem c7_body_part_counterexample :
    bodylessEmail.attachments ≠ []
      ∧ (buildRawMessage "s@x" bodylessEmail "B").parts
          = [⟨"application/octet-stream", some "base64",
              some "attachment; filename=f.bin", "AQID"⟩]
      ∧ bodyParts bodylessEmail = [] := by
  refine ⟨by decide, by decide, by decide⟩

/-- C7 (amended).  For every email with at least one attachment, the raw
MIME message contains *at most* one body part before the attachment
parts: exactly one with Content-Type `text/html; charset=UTF-8` when
`htmlBody` is non-empty, exactly one with `text/plain; charset=UTF-8`
when `htmlBody` is empty and `textBody` is non-empty, and none when both
bodies are empty. -/
theorem c7_single_body_part (sender : String) (msg : Email) (boundary : String)
    (hatt : msg.attachments ≠ []) :
    (msg.htmlBody ≠ "" →
        (buildRawMessage sender msg boundary).parts
          = ⟨"text/html; charset=UTF-8", none, none, msg.htmlBody⟩
              :: attachmentParts msg)
      ∧ (msg.htmlBody = "" → msg.textBody ≠ "" →
          (buildRawMessage sender msg boundary).parts
            = ⟨"text/plain; charset=UTF-8", none, none, msg.textBody⟩
                :: attachmentParts msg)
      ∧ (msg.htmlBody = "" → msg.textBody = "" →
          (buildRawMessage sender msg boundary).parts = attachmentParts msg) := by
  refine ⟨?_, ?_, ?_⟩
  · intro hh
    simp [buildRawMessage, bodyParts, hh]
  · intro hh ht
    simp [buildRawMessage, bodyParts, hh, ht]
  · intro hh ht
    simp [buildRawMessage, bodyParts, hh, ht]

/-- Witness for C7 (amended) at concrete emails exercising the
text-body and empty-body cases. -/
theorem c7_single_body_part_witness :
    (buildRawMessage "s@x" { bodylessEmail with textBody := "T" } "B").parts
        = ⟨"text/plain; charset=UTF-8", none, none, "T"⟩
            :: attachmentParts { bodylessEmail with textBody := "T" }
      ∧ (buildRawMessage "s@x" bodylessEmail "B").parts = attachmentParts bodylessEmail :=
  ⟨(c7_single_body_part "s@x" { bodylessEmail with textBody := "T" } "B"
      (by decide)).2.1 (by decide) (by decide),
    (c7_single_body_part "s@x" bodylessEmail "B" (by decide)).2.2 (by decide) (by decide)⟩

end SesSend

namespace TokenCacheM

/-- C10.  Whenever `Token()` finds the cached token absent or expired and
the refresh attempt fails (request error, body read error, non-200
status, unparseable response, or empty `access_token`), it returns an
error and leaves the cached `(accessToken, expiresAt)` pair exactly as it
was; and a `Token()` call mutates the cached fields only when the
refresh succeeds. -/
theorem c10_token_failure_preserves_cache :
    (∀ (st : CacheState) (now : Int) (o : RefreshOutcome),
        ¬ (st.accessToken ≠ "" ∧ now < st.expiresAt) →
        RefreshFails o →
        (∃ msg, (token st now o).1 = .error msg) ∧ (token st now o).2 = st)
      ∧ (∀ (st : CacheState) (now : Int) (o : RefreshOutcome),
          (token st now o).2 ≠ st → ¬ RefreshFails o) := by
  constructor
  · intro st now o hinv hfail
    rw [token, if_neg hinv]
    cases o with
    | requestError => exact ⟨⟨_, rfl⟩, rfl⟩
    | readError => exact ⟨⟨_, rfl⟩, rfl⟩
    | badStatus code => exact ⟨⟨_, rfl⟩, rfl⟩
    | badJSON => exact ⟨⟨_, rfl⟩, rfl⟩
    | parsed t e =>
        have ht : t = "" := hfail
        simp [refresh, ht]
  · intro st now o hne
    intro hfail
    apply hne
    rw [token]
    split_ifs with hv
    · rfl
    · cases o with
      | requestError => rfl
      | readError => rfl
      | badStatus code => rfl
      | badJSON => rfl
      | parsed t e =>
          have ht : t = "" := hfail
          simp [refresh, ht]

/-- Witness for C10 at a concrete empty cache and failing refresh. -/
theorem c10_token_failure_preserves_cache_witness :
    (∃ msg, (token ⟨"", 0⟩ 0 .requestError).1 = .error msg)
      ∧ (token ⟨"", 0⟩ 0 .requestError).2 = (⟨"", 0⟩ : CacheState) :=
  c10_token_failure_preserves_cache.1 ⟨"", 0⟩ 0 .requestError
    (by simp) (by trivial)

end TokenCacheM

namespace MimeWalk

/-- C9.  Per-part transfer decoding: when the Content-Transfer-Encoding
value, trimmed and lower-cased, is `base64`, every CR (13) and LF (10)
byte is stripped and a padded base64 decode is attempted, falling back to
an unpadded decode (failing only if both fail); for any other encoding
value — including empty, `7bit`, `8bit`, `binary` and
`quoted-printable` — the raw part bytes are returned unchanged. -/
theorem c9_transfer_decoding :
    (∀ (enc : String) (raw : List Nat), normalizeEncoding enc ≠ "base64" →
        readPartContent enc raw = some raw)
      ∧ (∀ (enc : String) (raw : List Nat), normalizeEncoding enc = "base64" →
          readPartContent enc raw =
            (match padB64Decode (raw.filter (fun b => b ≠ 13 ∧ b ≠ 10)) with
             | some d => some d
             | none => rawB64Decode (raw.filter (fun b => b ≠ 13 ∧ b ≠ 10)))) := by
  constructor
  · intro enc raw h
    rw [readPartContent, if_neg h]
  · intro enc raw h
    rw [readPartContent, if_pos h]

/-- Witness for C9: `7bit` returns bytes unchanged; an upper-cased
`BASE64` header with CRLF-split content decodes (here the spec's own
example, base64 of `Hello World` split across lines); an unpadded body
is accepted through the fallback decode. -/
theorem c9_transfer_decoding_witness :
    readPartContent "7bit" [1, 2, 3] = some [1, 2, 3]
      ∧ readPartContent "BASE64"
          [83, 71, 86, 115, 13, 10, 98, 71, 56, 103, 13, 10,
            86, 50, 57, 121, 13, 10, 98, 71, 81, 61]
          = some [72, 101, 108, 108, 111, 32, 87, 111, 114, 108, 100]
      ∧ readPartContent "base64" [83, 71, 86, 115, 98, 71, 56]
          = some [72, 101, 108, 108, 111]
      ∧ padB64Decode [83, 71, 86, 115, 98, 71, 56] = none := by
  refine ⟨c9_transfer_decoding.1 "7bit" [1, 2, 3] (by decide), ?_, ?_, by decide⟩
  · rw [c9_transfer_decoding.2 "BASE64" _ (by decide)]
    decide
  · rw [c9_transfer_decoding.2 "base64" _ (by decide)]
    decide

end MimeWalk

namespace MimeWalk

/-- The walker's success flag depends only on the part stream: it is true
iff the stream at the walker's own level ends in `io.EOF` rather than a
read error.  Every per-part failure path (unparseable part content type,
missing nested boundary, failed or undecodable part content, failed
nested walk) skips the part and continues. -/
lemma runMultipart_snd (st : PStream) : ∀ e : Email,
    (runMultipart st e).2 = ! streamReadFails st := by
  induction st with
  | eof => intro e; simp [runMultipart, streamReadFails]
  | readError => intro e; simp [runMultipart, streamReadFails]
  | part p nested rest ihn ihr =>
      intro e
      simp only [runMultipart, streamReadFails]
      rcases hcp : p.ctParse with _ | m
      · exact ihr e
      · dsimp only
        split_ifs <;>
          first
            | exact ihr _
            | (rcases hrc : readPartContent p.encoding p.raw with _ | c <;>
                dsimp only <;>
                first
                  | exact ihr _
                  | (split_ifs <;> exact ihr _))

/-- C6.  The parser returns an error exactly in the specification's three
cases — unparseable top-level message, multipart content type without a
boundary parameter, or a failure reading the body (for a multipart body:
the part stream ends in a read error) — and in no other case; in
particular every per-part failure leaves the parse succeeding. -/
theorem c6_error_cases (i : ParseInput) :
    (∃ msg, Parse i = .error msg) ↔ specErrorCondition i := by
  cases i with
  | malformed => simp [Parse, specErrorCondition]
  | msg hFrom hSubject hMsgID hTo hCc hBcc ct bodyReadErr body stream =>
      cases ct with
      | unparseable =>
          cases bodyReadErr <;> simp [Parse, specErrorCondition]
      | absent =>
          cases bodyReadErr <;> simp [Parse, specErrorCondition]
      | parsed mt boundary =>
          simp only [Parse, specErrorCondition]
          by_cases hmp : strHasPfx mt "multipart/" = true
          · rw [if_pos hmp, if_pos hmp]
            by_cases hb : boundary.getD "" = ""
            · rw [if_pos hb]
              simp [hb]
            · rw [if_neg hb]
              rcases hrm : runMultipart stream
                  { emptyEmail with
                      fromAddr := hFrom, subject := hSubject, messageID := hMsgID,
                      toAddrs := hTo, ccAddrs := hCc, bccAddrs := hBcc }
                with ⟨e1, ok⟩
              have hsnd := runMultipart_snd stream
                { emptyEmail with
                    fromAddr := hFrom, subject := hSubject, messageID := hMsgID,
                    toAddrs := hTo, ccAddrs := hCc, bccAddrs := hBcc }
              rw [hrm] at hsnd
              cases ok
              · have : streamReadFails stream = true := by simpa using hsnd
                simp [this, hb]
              · have : streamReadFails stream = false := by simpa using hsnd
                simp [this, hb]
          · rw [if_neg hmp, if_neg hmp]
            cases bodyReadErr
            · simp only [if_neg (by simp : ¬ (false = true))]
              split_ifs <;> simp
            · simp
end MimeWalk

namespace MimeWalk

/-- The synthesised fallback filename is never empty (`attachment.` plus
a subtype, or the bare literal `attachment`). -/
lemma extractFilenameFallback_ne (p : PartInfo) :
    extractFilename.extractFilenameFallback p ≠ "" := by
  rw [extractFilename.extractFilenameFallback]
  rcases p.ctRawParse with _ | mt
  · decide
  · dsimp only
    split_ifs
    · intro h
      have hd := congrArg String.data h
      simp at hd
    · decide

/-- `extractFilename` never returns an empty string: each stage of the
cascade is guarded to be non-empty and the final fallback is a literal. -/
lemma extractFilename_ne (p : PartInfo) : extractFilename p ≠ "" := by
  rw [extractFilename]
  split_ifs with hd
  · exact hd
  · rcases hnm : p.ctParse.bind (fun m => m.name) with _ | n
    · exact extractFilenameFallback_ne p
    · dsimp only
      split_ifs with hn
      · exact hn
      · exact extractFilenameFallback_ne p

/-- The walker preserves non-emptiness of attachment filenames: every
attachment it appends carries either `extractFilename` of its part
(never empty) or a name the branch guard checked to be non-empty. -/
lemma runMultipart_filenames (st : PStream) : ∀ e : Email,
    (∀ a ∈ e.attachments, a.filename ≠ "") →
    ∀ a ∈ (runMultipart st e).1.attachments, a.filename ≠ "" := by
  induction st with
  | eof => intro e he; simpa [runMultipart] using he
  | readError => intro e he; simpa [runMultipart] using he
  | part p nested rest ihn ihr =>
      intro e he
      simp only [runMultipart]
      rcases hcp : p.ctParse with _ | m
      · exact ihr e he
      · dsimp only
        by_cases h1 : strHasPfx m.mediaType "multipart/" = true
        · rw [if_pos h1]
          by_cases h2 : m.boundary.getD "" = ""
          · rw [if_pos h2]; exact ihr e he
          · rw [if_neg h2]; exact ihr _ (ihn e he)
        · rw [if_neg h1]
          by_cases h3 : p.readErr = true
          · rw [if_pos h3]; exact ihr e he
          · rw [if_neg h3]
            rcases hrc : readPartContent p.encoding p.raw with _ | c
            · exact ihr e he
            · dsimp only
              by_cases h4 : strHasPfx p.disposition "attachment" = true
              · rw [if_pos h4]
                refine ihr _ ?_
                intro a ha
                rcases List.mem_append.mp ha with ha | ha
                · exact he a ha
                · obtain rfl := List.mem_singleton.mp ha
                  exact extractFilename_ne p
              · rw [if_neg h4]
                by_cases h5 : m.mediaType = "text/plain"
                · rw [if_pos h5]
                  refine ihr _ ?_
                  split_ifs <;> exact he
                · rw [if_neg h5]
                  by_cases h6 : m.mediaType = "text/html"
                  · rw [if_pos h6]
                    refine ihr _ ?_
                    split_ifs <;> exact he
                  · rw [if_neg h6]
                    by_cases h7 : extractFilename p ≠ ""
                    · rw [if_pos h7]
                      refine ihr _ ?_
                      intro a ha
                      rcases List.mem_append.mp ha with ha | ha
                      · exact he a ha
                      · obtain rfl := List.mem_singleton.mp ha
                        exact h7
                    · rw [if_neg h7]; exact ihr e he

/-- C8.  (i) On every input on which the parser succeeds, every
attachment of the resulting email has a non-empty filename.  The
filename is resolved by the cascade of `extractFilename`: (ii) the
Content-Disposition filename when non-empty; (iii) else the Content-Type
`name` parameter when present and non-empty; (iv) else
`attachment.<subtype>` when the raw Content-Type header re-parses to a
media type containing a `/`; (v) else the literal `attachment`. -/
theorem c8_nonempty_attachment_filenames :
    (∀ (i : ParseInput) (e : Email), Parse i = .ok e →
        ∀ a ∈ e.attachments, a.filename ≠ "")
      ∧ (∀ p : PartInfo, p.dispFilename ≠ "" → extractFilename p = p.dispFilename)
      ∧ (∀ (p : PartInfo) (n : String), p.dispFilename = "" →
          p.ctParse.bind (fun m => m.name) = some n → n ≠ "" →
          extractFilename p = n)
      ∧ (∀ (p : PartInfo) (mt : String), p.dispFilename = "" →
          p.ctParse.bind (fun m => m.name) = none → p.ctRawParse = some mt →
          '/' ∈ mt.data →
          extractFilename p
            = "attachment." ++ String.mk ((mt.data.dropWhile (fun c => c ≠ '/')).drop 1))
      ∧ (∀ p : PartInfo, p.dispFilename = "" →
          p.ctParse.bind (fun m => m.name) = none → p.ctRawParse = none →
          extractFilename p = "attachment") := by
  refine ⟨?_, ?_, ?_, ?_, ?_⟩
  · intro i e hok
    cases i with
    | malformed => simp [Parse] at hok
    | msg hF hS hM hT hC hB ct br body stream =>
        cases ct with
        | unparseable =>
            cases br <;> simp [Parse] at hok
            subst hok
            intro a ha
            simp [emptyEmail] at ha
        | absent =>
            cases br <;> simp [Parse] at hok
            subst hok
            intro a ha
            simp [emptyEmail] at ha
        | parsed mt boundary =>
            simp only [Parse] at hok
            by_cases hmp : strHasPfx mt "multipart/" = true
            · rw [if_pos hmp] at hok
              by_cases hb : boundary.getD "" = ""
              · rw [if_pos hb] at hok
                simp at hok
              · rw [if_neg hb] at hok
                rcases hrm : runMultipart stream
                    { emptyEmail with
                        fromAddr := hF, subject := hS, messageID := hM,
                        toAddrs := hT, ccAddrs := hC, bccAddrs := hB }
                  with ⟨e1, ok1⟩
                rw [hrm] at hok
                cases ok1
                · simp at hok
                · simp only [Except.ok.injEq] at hok
                  subst hok
                  have hfn := runMultipart_filenames stream
                    { emptyEmail with
                        fromAddr := hF, subject := hS, messageID := hM,
                        toAddrs := hT, ccAddrs := hC, bccAddrs := hB }
                    (by intro a ha; simp [emptyEmail] at ha)
                  rw [hrm] at hfn
                  exact hfn
            · rw [if_neg hmp] at hok
              cases br
              · rw [if_neg (by simp : ¬ (false = true))] at hok
                split_ifs at hok <;>
                  (simp only [Except.ok.injEq] at hok
                   subst hok
                   intro a ha
                   simp [emptyEmail] at ha)
              · simp at hok
  · intro p h
    rw [extractFilename, if_pos h]
  · intro p n hd hnm hn
    rw [extractFilename, if_neg (by simp [hd]), hnm]
    dsimp only
    rw [if_pos hn]
  · intro p mt hd hnm hraw hs
    rw [extractFilename, if_neg (by simp [hd]), hnm]
    dsimp only
    rw [extractFilename.extractFilenameFallback, hraw]
    dsimp only
    rw [if_pos hs]
  · intro p hd hnm hraw
    rw [extractFilename, if_neg (by simp [hd]), hnm]
    dsimp only
    rw [extractFilename.extractFilenameFallback, hraw]

/-- A concrete attachment part: Content-Disposition carries
`filename=file.pdf`, the body is base64 `SGVsbG8=` (`Hello`). -/
def samplePart : PartInfo :=
  { ctParse := some ⟨"application/pdf", none, none⟩
    ctRawParse := some "application/pdf"
    disposition := "attachment; filename=file.pdf"
    dispFilename := "file.pdf"
    encoding := "base64"
    raw := [83, 71, 86, 115, 98, 71, 56, 61]
    readErr := false }

/-- A concrete multipart message input holding `samplePart` as its only
part. -/
def sampleInput : ParseInput :=
  .msg "a@x" "S" "" ["b@x"] [] []
    (.parsed "multipart/mixed" (some "B")) false [] (.part samplePart .eof .eof)

/-- The email `Parse` produces on `sampleInput`. -/
def sampleEmail : Email :=
  { fromAddr := "a@x", toAddrs := ["b@x"], ccAddrs := [], bccAddrs := [],
    subject := "S", textBody := [], htmlBody := [],
    attachments := [⟨"file.pdf", "application/pdf", [72, 101, 108, 108, 111]⟩],
    messageID := "" }

/-- Witness for C8 at `sampleInput`: the parse succeeds, the attachment's
filename is non-empty, and the cascade's first stage picked the
Content-Disposition filename. -/
theorem c8_nonempty_attachment_filenames_witness :
    Parse sampleInput = .ok sampleEmail
      ∧ ("file.pdf" : String) ≠ ""
      ∧ extractFilename samplePart = "file.pdf" :=
  ⟨rfl,
    c8_nonempty_attachment_filenames.1 sampleInput sampleEmail rfl
      ⟨"file.pdf", "application/pdf", [72, 101, 108, 108, 111]⟩ (by decide),
    c8_nonempty_attachment_filenames.2.1 samplePart (by decide)⟩

end MimeWalk
